import Mathlib

/-!
Shallow embedding of the agent-instant-stack (dcsandbox) core in Lean 4,
with theorems checking the natural-language specification against the code.

Sources embedded:
- `src/types.ts` (data model)
- `src/lib/sandbox-manager.ts` (`SandboxManager`: createSandbox, startSandbox,
  stopSandbox, getSandbox, listSandboxes, saveSandboxConfig, parseMemory)
- `src/lib/mcp-proxy.ts` (`MCPProxy.allocatePort` / `releasePort`,
  `MCPProxyInstance.handleConnection` / `handleMCPMessage` / `callTool` /
  `readResource`)
- `src/lib/project-detector.ts` (`ProjectDetector.detectProject` and the
  eight language detectors)
- `src/commands/create.ts` (`createCommand` template resolution and the
  sandbox-config construction)

JavaScript numbers that hold detector scores and resource quantities are
modelled as rationals (`ℚ`); all score literals in the source are exactly
representable, so the rational semantics agrees with the source on every
value the theorems touch.  JavaScript string operations (`endsWith`,
`includes`, `startsWith`, `replace` after a checked prefix) are modelled on
the character lists underlying Lean strings.  `JSON.stringify` /
`JSON.parse` are opaque library calls in the source and appear here as
function parameters, universally quantified in the theorems.
-/

/-! ## Data model (`src/types.ts`) -/

/-- `SandboxConfig.status` union type. -/
inductive Status where
  | creating
  | running
  | stopped
  | error
deriving DecidableEq, Repr

/-- `MCPServer` from `types.ts` (env omitted: no embedded code reads it). -/
structure MCPServer where
  name : String
  command : String
  args : List String
  enabled : Bool
deriving DecidableEq, Repr

/-- `MCPConfig` from `types.ts`. -/
structure MCPConfig where
  enabled : Bool
  servers : List MCPServer
deriving DecidableEq, Repr

/-- `GitConfig` from `types.ts`. -/
structure GitConfig where
  url : String
  branch : String
  clonePath : Option String
deriving DecidableEq, Repr

/-- `ResourceConfig` from `types.ts`; `memory` is a string, `cpu` and
`timeout` are JS numbers. -/
structure ResourceConfig where
  memory : String
  cpu : ℚ
  disk : String
  timeout : ℚ
deriving DecidableEq, Repr

/-- `SandboxConfig` from `types.ts`: the persisted sandbox record.
`created` is the `Date` as epoch milliseconds. -/
structure SandboxConfig where
  id : String
  name : String
  status : Status
  created : Int
  template : String
  git : Option GitConfig
  mcp : MCPConfig
  resources : ResourceConfig
  containerId : Option String
  mcpPort : Option Nat
deriving DecidableEq, Repr

/-- `Template` from `types.ts`.  `environment` and `ports` are optional in
the source and every use guards them with `|| ...` defaults. -/
structure Template where
  name : String
  baseImage : String
  features : List String
  mcpServers : List MCPServer
  postCreate : Option (List String)
  environment : Option (List (String × String))
  ports : Option (List Nat)
deriving DecidableEq, Repr

/-- `ProjectDetection` from `types.ts`. -/
structure ProjectDetection where
  language : String
  framework : Option String
  packageManager : Option String
  template : String
  confidence : ℚ
deriving DecidableEq, Repr

/-! ## Port allocator (`src/lib/mcp-proxy.ts`, class `MCPProxy`) -/

/-- The in-memory state of `MCPProxy`: the `activePorts` set (as a list;
`Set.has` = `contains`, `Set.add` = cons, `Set.delete` = filter) and the
`portRange` field.  The source initialises `portRange` to
`{min: 50000, max: 60000}`. -/
structure ProxyState where
  activePorts : List Nat
  portMin : Nat
  portMax : Nat
deriving DecidableEq, Repr

/-- The state a fresh `new MCPProxy()` starts in. -/
def initialProxyState : ProxyState :=
  { activePorts := [], portMin := 50000, portMax := 60000 }

/-- Failure of `allocatePort`: the source throws
`new Error('No available ports in range')`. -/
inductive PortError where
  | portExhausted
deriving DecidableEq, Repr

/-- The ports `allocatePort` scans, in scan order:
`for (let port = min; port <= max; port++)`. -/
def rangePorts (st : ProxyState) : List Nat :=
  (List.range (st.portMax + 1 - st.portMin)).map (fun i => i + st.portMin)

/-- `MCPProxy.allocatePort`: return the first port of the range not in
`activePorts`, adding it to the set; throw when the loop finds none. -/
def allocatePort (st : ProxyState) : Except PortError (Nat × ProxyState) :=
  match (rangePorts st).find? (fun p => !(st.activePorts.contains p)) with
  | some p => .ok (p, { st with activePorts := p :: st.activePorts })
  | none => .error .portExhausted

/-- `MCPProxy.releasePort`: `activePorts.delete(port)`. -/
def releasePort (st : ProxyState) (p : Nat) : ProxyState :=
  { st with activePorts := st.activePorts.filter (fun q => q ≠ p) }

/-- C2: for every held-port set, `allocatePort` returns a port inside the
configured range that was not held and is held afterwards; it fails with
port exhaustion exactly when every port of the range is held; with the
range narrowed to one port `p` it returns `p` once and then fails, and
after `releasePort p` a later `allocatePort` returns `p` again. -/
theorem allocatePort_correct :
    (∀ st p st', allocatePort st = .ok (p, st') →
      st.portMin ≤ p ∧ p ≤ st.portMax ∧
        st.activePorts.contains p = false ∧ st'.activePorts.contains p = true) ∧
    (∀ st, allocatePort st = .error .portExhausted ↔
      ∀ q ∈ rangePorts st, st.activePorts.contains q = true) ∧
    (∀ p : Nat,
      allocatePort ⟨[], p, p⟩ = .ok (p, ⟨[p], p, p⟩) ∧
      allocatePort ⟨[p], p, p⟩ = .error .portExhausted ∧
      allocatePort (releasePort ⟨[p], p, p⟩ p) = .ok (p, ⟨[p], p, p⟩)) := by
  refine ⟨?_, ?_, ?_⟩
  · intro st p st' h
    unfold allocatePort at h
    cases hf : (rangePorts st).find? (fun p => !(st.activePorts.contains p)) with
    | none => rw [hf] at h; exact absurd h (by simp)
    | some q =>
      rw [hf] at h
      have hq := List.find?_some hf
      have hmem := List.mem_of_find?_eq_some hf
      simp only [Except.ok.injEq, Prod.mk.injEq] at h
      obtain ⟨hpq, hst⟩ := h
      subst hpq
      simp only [rangePorts, List.mem_map, List.mem_range] at hmem
      obtain ⟨i, hi, hip⟩ := hmem
      subst hip
      refine ⟨Nat.le_add_left _ _, by omega, ?_, ?_⟩
      · simpa using hq
      · subst hst; simp
  · intro st
    unfold allocatePort
    cases hf : (rangePorts st).find? (fun p => !(st.activePorts.contains p)) with
    | none =>
      constructor
      · intro _ q hq
        have := List.find?_eq_none.mp hf q hq
        simpa using this
      · intro _
        rfl
    | some q =>
      simp only [reduceCtorEq, false_iff, not_forall]
      have hq := List.find?_some hf
      have hmem := List.mem_of_find?_eq_some hf
      exact ⟨q, hmem, by simpa using hq⟩
  · intro p
    have hrange : rangePorts ⟨[], p, p⟩ = [p] := by
      simp [rangePorts, List.range_succ]
    have hrange2 : rangePorts ⟨[p], p, p⟩ = [p] := by
      simp [rangePorts, List.range_succ]
    refine ⟨?_, ?_, ?_⟩
    · simp [allocatePort, hrange, List.find?]
    · simp [allocatePort, hrange2, List.find?]
    · have : releasePort ⟨[p], p, p⟩ p = ⟨[], p, p⟩ := by
        simp [releasePort]
      rw [this]
      simp [allocatePort, hrange, List.find?]

/-- Witness for `allocatePort_correct`: instantiate the first conjunct on a
concrete three-port state. -/
theorem allocatePort_correct_witness :
    (7 : Nat) ≤ 7 ∧ (7 : Nat) ≤ 9 ∧
      ([] : List Nat).contains 7 = false ∧ [7].contains 7 = true :=
  allocatePort_correct.1 ⟨[], 7, 9⟩ 7 ⟨[7], 7, 9⟩ rfl

/-! ## Lifecycle operations (`src/lib/sandbox-manager.ts`) -/

/-- JavaScript truthiness of an optional string: `undefined` and the empty
string are falsy (`!config.containerId` in the source rejects both). -/
def jsTruthyStr : Option String → Bool
  | none => false
  | some s => !(s == "")

/-- Errors thrown by the lifecycle operations. -/
inductive SandboxError where
  | notFound
  | portExhausted
deriving DecidableEq, Repr

/-- The record `SandboxManager.createSandbox` persists and returns: the
input config with the runtime-assigned `containerId` and
`status: 'stopped'` (lines 80-90 of `sandbox-manager.ts`). -/
def createSandboxRecord (cid : String) (cfg : SandboxConfig) : SandboxConfig :=
  { cfg with containerId := some cid, status := .stopped }

/-- `SandboxManager.startSandbox`, at the record level: `stored` is the
result of `getSandbox`; the source throws when it is null or its
`containerId` is falsy, starts the container, allocates an MCP port and
persists the record with `status: 'running'` and the port. -/
def startSandbox (st : ProxyState) (stored : Option SandboxConfig) :
    Except SandboxError (SandboxConfig × ProxyState) :=
  match stored with
  | none => .error .notFound
  | some cfg =>
    if jsTruthyStr cfg.containerId then
      match allocatePort st with
      | .ok (port, st') =>
        .ok ({ cfg with status := .running, mcpPort := some port }, st')
      | .error _ => .error .portExhausted
    else .error .notFound

/-- JavaScript truthiness of an optional number: `undefined` and `0` are
falsy (`if (config.mcpPort)` in the source). -/
def jsTruthyNat : Option Nat → Bool
  | none => false
  | some n => !(n == 0)

/-- `SandboxManager.stopSandbox`, at the record level: throws when the
record is absent or its `containerId` falsy, stops the container, releases
the held port when `config.mcpPort` is truthy, and persists the record with
`status: 'stopped'` and `mcpPort: undefined`. -/
def stopSandbox (st : ProxyState) (stored : Option SandboxConfig) :
    Except SandboxError (SandboxConfig × ProxyState) :=
  match stored with
  | none => .error .notFound
  | some cfg =>
    if jsTruthyStr cfg.containerId then
      let st' := if jsTruthyNat cfg.mcpPort
        then releasePort st (cfg.mcpPort.getD 0)
        else st
      .ok ({ cfg with status := .stopped, mcpPort := none }, st')
    else .error .notFound

/-- The config object `createCommand` builds (lines 54-75 of
`src/commands/create.ts`) before calling `createSandbox`: `status` is
`'creating'`, no `containerId`, no `mcpPort`; resource defaults `'2G'`,
`2`, disk `'10G'`, timeout `120` are applied with `||`. -/
def mkCreateConfig (sandboxId sandboxName : String)
    (gitUrl : Option String) (branch : Option String)
    (clonePath : Option String) (templateName : String)
    (servers : List MCPServer) (memory : Option String) (cpu : Option ℚ)
    (timeout : Option ℚ) (created : Int) : SandboxConfig :=
  { id := sandboxId
    name := sandboxName
    status := .creating
    created := created
    template := templateName
    git := gitUrl.map (fun u => ⟨u, branch.getD "main", clonePath⟩)
    mcp := ⟨true, servers⟩
    resources := ⟨memory.getD "2G", cpu.getD 2, "10G", timeout.getD 120⟩
    containerId := none
    mcpPort := none }

/-- The §3 record invariant the spec states:
`status = running` implies a non-empty `containerId` and a present
`mcpPort`; `status = stopped` implies no `mcpPort`. -/
def statusInvariant (r : SandboxConfig) : Prop :=
  (r.status = .running →
    (∃ s, r.containerId = some s ∧ s ≠ "") ∧ r.mcpPort ≠ none) ∧
  (r.status = .stopped → r.mcpPort = none)

/-- C1: every record the lifecycle operations persist satisfies the status
invariants.  `createSandbox` persists a `stopped` record carrying the input
config's `mcpPort`, so its conjunct assumes the input has none — which the
sole caller guarantees: the config built by `createCommand` has
`mcpPort = none` (last conjunct). -/
theorem lifecycle_status_invariant :
    (∀ cid cfg, cfg.mcpPort = none →
      statusInvariant (createSandboxRecord cid cfg)) ∧
    (∀ st stored r st', startSandbox st stored = .ok (r, st') →
      statusInvariant r) ∧
    (∀ st stored r st', stopSandbox st stored = .ok (r, st') →
      statusInvariant r) ∧
    (∀ sid nm gu br cp tn sv mem cpu tout cr,
      (mkCreateConfig sid nm gu br cp tn sv mem cpu tout cr).mcpPort = none ∧
      (mkCreateConfig sid nm gu br cp tn sv mem cpu tout cr).status
        = .creating) := by
  refine ⟨?_, ?_, ?_, ?_⟩
  · intro cid cfg hport
    constructor
    · intro h
      simp [createSandboxRecord] at h
    · intro _
      simpa [createSandboxRecord] using hport
  · intro st stored r st' h
    match stored with
    | none => simp [startSandbox] at h
    | some cfg =>
      simp only [startSandbox] at h
      by_cases hc : jsTruthyStr cfg.containerId
      · rw [if_pos hc] at h
        cases halloc : allocatePort st with
        | ok pr =>
          rw [halloc] at h
          simp only [Except.ok.injEq, Prod.mk.injEq] at h
          obtain ⟨hr, _⟩ := h
          subst hr
          constructor
          · intro _
            refine ⟨?_, by simp⟩
            match hcid : cfg.containerId with
            | none => rw [hcid] at hc; simp [jsTruthyStr] at hc
            | some s =>
              refine ⟨s, rfl, ?_⟩
              rw [hcid] at hc
              simp [jsTruthyStr] at hc
              intro hs
              exact hc (by simp [hs])
          · intro hcontra
            simp at hcontra
        | error e =>
          rw [halloc] at h
          simp at h
      · rw [if_neg hc] at h
        simp at h
  · intro st stored r st' h
    match stored with
    | none => simp [stopSandbox] at h
    | some cfg =>
      simp only [stopSandbox] at h
      by_cases hc : jsTruthyStr cfg.containerId
      · rw [if_pos hc] at h
        simp only [Except.ok.injEq, Prod.mk.injEq] at h
        obtain ⟨hr, _⟩ := h
        subst hr
        constructor
        · intro hcontra
          simp at hcontra
        · intro _
          simp
      · rw [if_neg hc] at h
        simp at h
  · intro sid nm gu br cp tn sv mem cpu tout cr
    exact ⟨rfl, rfl⟩

/-- Witness for `lifecycle_status_invariant`: run `startSandbox` on a
concrete stored record and check the persisted record. -/
theorem lifecycle_status_invariant_witness :
    statusInvariant
      { id := "s1", name := "s1", status := .running, created := 0,
        template := "base", git := none, mcp := ⟨true, []⟩,
        resources := ⟨"2G", 2, "10G", 120⟩, containerId := some "c1",
        mcpPort := some 50000 } :=
  lifecycle_status_invariant.2.1 ⟨[], 50000, 50001⟩
    (some { id := "s1", name := "s1", status := .stopped, created := 0,
            template := "base", git := none, mcp := ⟨true, []⟩,
            resources := ⟨"2G", 2, "10G", 120⟩, containerId := some "c1",
            mcpPort := none })
    { id := "s1", name := "s1", status := .running, created := 0,
      template := "base", git := none, mcp := ⟨true, []⟩,
      resources := ⟨"2G", 2, "10G", 120⟩, containerId := some "c1",
      mcpPort := some 50000 }
    ⟨[50000], 50000, 50001⟩
    (by rfl)

/-! ## Memory string parsing (`SandboxManager.parseMemory`) -/

/-- `parseInt(match[1])` on the digit group of the regex. -/
def digitsToNat (ds : List Char) : Nat :=
  ds.foldl (fun n c => 10 * n + (c.toNat - '0'.toNat)) 0

/-- The branch structure of `parseMemory` once the regex groups are known:
`ds` is the digit group, `rest` what follows it.  The `switch` on the
uppercased unit group appears as case-insensitive comparisons. -/
def parseMemoryCore (s : String) (ds rest : List Char) : Except String Nat :=
  if ds.isEmpty then .error ("Invalid memory format: " ++ s)
  else
    match rest with
    | [] => .ok (digitsToNat ds)
    | [c] =>
      if c == 'K' || c == 'k' then .ok (digitsToNat ds * 1024)
      else if c == 'M' || c == 'm' then .ok (digitsToNat ds * 1024 * 1024)
      else if c == 'G' || c == 'g' then
        .ok (digitsToNat ds * 1024 * 1024 * 1024)
      else if c == 'T' || c == 't' then
        .ok (digitsToNat ds * 1024 * 1024 * 1024 * 1024)
      else .error ("Invalid memory format: " ++ s)
    | _ => .error ("Invalid memory format: " ++ s)

/-- `SandboxManager.parseMemory`: match the input against
`/^(\d+)([KMGT]?)$/i` and scale the digit value by the unit.  The regex is
realised by maximal-munch: the digit group is the maximal digit prefix
(digits and unit letters are disjoint, so regex backtracking can never
produce a different split) and the remainder must be empty or one unit
letter of either case. -/
def parseMemory (s : String) : Except String Nat :=
  parseMemoryCore s (s.data.takeWhile (fun c => c.isDigit))
    (s.data.dropWhile (fun c => c.isDigit))

/-- The unit letters `[KMGT]` in both cases. -/
def memUnitChars : List Char := ['K', 'M', 'G', 'T', 'k', 'm', 'g', 't']

/-- The language of `^\d+[KMGT]?$` (case-insensitive), stated from the
claim's words: one or more digits followed by an optional unit letter. -/
def memoryStringGrammar (s : String) : Prop :=
  ∃ ds u, s.data = ds ++ u ∧ ds ≠ [] ∧ (∀ c ∈ ds, c.isDigit = true) ∧
    (u = [] ∨ ∃ c, u = [c] ∧ c ∈ memUnitChars)

theorem takeWhile_append_all {p : Char → Bool} (l₂ : List Char) :
    ∀ l₁ : List Char, (∀ c ∈ l₁, p c = true) →
      (l₁ ++ l₂).takeWhile p = l₁ ++ l₂.takeWhile p := by
  intro l₁
  induction l₁ with
  | nil => intro _; simp
  | cons a l ih =>
    intro h
    have ha : p a = true := h a (by simp)
    simp only [List.cons_append, List.takeWhile_cons, ha, if_true]
    rw [ih (fun c hc => h c (by simp [hc]))]

theorem dropWhile_append_all {p : Char → Bool} (l₂ : List Char) :
    ∀ l₁ : List Char, (∀ c ∈ l₁, p c = true) →
      (l₁ ++ l₂).dropWhile p = l₂.dropWhile p := by
  intro l₁
  induction l₁ with
  | nil => intro _; simp
  | cons a l ih =>
    intro h
    have ha : p a = true := h a (by simp)
    simp only [List.cons_append, List.dropWhile_cons, ha, if_true]
    exact ih (fun c hc => h c (by simp [hc]))

theorem parseMemoryCore_nil (s : String) (ds : List Char)
    (h : ds.isEmpty = false) :
    parseMemoryCore s ds [] = .ok (digitsToNat ds) := by
  simp [parseMemoryCore, h]

theorem parseMemoryCore_units (s : String) (ds : List Char)
    (h : ds.isEmpty = false) :
    parseMemoryCore s ds ['K'] = .ok (digitsToNat ds * 1024) ∧
    parseMemoryCore s ds ['k'] = .ok (digitsToNat ds * 1024) ∧
    parseMemoryCore s ds ['M'] = .ok (digitsToNat ds * 1024 * 1024) ∧
    parseMemoryCore s ds ['m'] = .ok (digitsToNat ds * 1024 * 1024) ∧
    parseMemoryCore s ds ['G'] = .ok (digitsToNat ds * 1024 * 1024 * 1024) ∧
    parseMemoryCore s ds ['g'] = .ok (digitsToNat ds * 1024 * 1024 * 1024) ∧
    parseMemoryCore s ds ['T']
      = .ok (digitsToNat ds * 1024 * 1024 * 1024 * 1024) ∧
    parseMemoryCore s ds ['t']
      = .ok (digitsToNat ds * 1024 * 1024 * 1024 * 1024) := by
  refine ⟨?_, ?_, ?_, ?_, ?_, ?_, ?_, ?_⟩ <;> simp [parseMemoryCore, h]

theorem parseMemoryCore_bad_unit (s : String) (ds : List Char) (c : Char)
    (hc : c ∉ memUnitChars) :
    parseMemoryCore s ds [c] = .error ("Invalid memory format: " ++ s) := by
  simp only [memUnitChars, List.mem_cons, List.not_mem_nil, or_false,
    not_or] at hc
  obtain ⟨h1, h2, h3, h4, h5, h6, h7, h8⟩ := hc
  by_cases hds : ds.isEmpty <;>
    simp [parseMemoryCore, hds, h1, h2, h3, h4, h5, h6, h7, h8]

theorem parseMemoryCore_long (s : String) (ds : List Char) (c d : Char)
    (rest : List Char) :
    parseMemoryCore s ds (c :: d :: rest)
      = .error ("Invalid memory format: " ++ s) := by
  by_cases hds : ds.isEmpty <;> simp [parseMemoryCore, hds]

set_option maxRecDepth 4096 in
/-- C3 (amended): `parseMemory` accepts exactly the strings matched by
`^\d+[KMGT]?$` (case-insensitively); no unit means bytes and the units
scale by `2^10`, `2^20`, `2^30`, `2^40`; `""`, `"1KB"` and `"1 G"` are
rejected as invalid; `"0"` is accepted and yields 0 bytes. -/
theorem parseMemory_correct :
    (∀ s : String, (∃ n, parseMemory s = .ok n) ↔ memoryStringGrammar s) ∧
    (∀ ds : List Char, ds ≠ [] → (∀ c ∈ ds, c.isDigit = true) →
      parseMemory ⟨ds⟩ = .ok (digitsToNat ds) ∧
      parseMemory ⟨ds ++ ['K']⟩ = .ok (digitsToNat ds * 2 ^ 10) ∧
      parseMemory ⟨ds ++ ['m']⟩ = .ok (digitsToNat ds * 2 ^ 20) ∧
      parseMemory ⟨ds ++ ['G']⟩ = .ok (digitsToNat ds * 2 ^ 30) ∧
      parseMemory ⟨ds ++ ['t']⟩ = .ok (digitsToNat ds * 2 ^ 40)) ∧
    (parseMemory "" = .error "Invalid memory format: " ∧
      parseMemory "1KB" = .error "Invalid memory format: 1KB" ∧
      parseMemory "1 G" = .error "Invalid memory format: 1 G" ∧
      parseMemory "0" = .ok 0) := by
  have hunitdig : ∀ c ∈ memUnitChars, c.isDigit = false := by decide
  have hsplitter : ∀ ds u : List Char, (∀ c ∈ ds, c.isDigit = true) →
      (u = [] ∨ ∃ c, u = [c] ∧ c ∈ memUnitChars) →
      ((ds ++ u).takeWhile (fun c => c.isDigit) = ds ∧
        (ds ++ u).dropWhile (fun c => c.isDigit) = u) := by
    intro ds u hdig hu
    constructor
    · rw [takeWhile_append_all _ _ hdig]
      rcases hu with rfl | ⟨c, rfl, hc⟩
      · simp
      · simp [List.takeWhile_cons, hunitdig c hc]
    · rw [dropWhile_append_all _ _ hdig]
      rcases hu with rfl | ⟨c, rfl, hc⟩
      · simp
      · simp [List.dropWhile_cons, hunitdig c hc]
  refine ⟨?_, ?_, rfl, rfl, rfl, rfl⟩
  · intro s
    constructor
    · rintro ⟨n, h⟩
      unfold parseMemory at h
      by_cases hds : (s.data.takeWhile (fun c => c.isDigit)).isEmpty
      · rw [show parseMemoryCore s (s.data.takeWhile (fun c => c.isDigit))
            (s.data.dropWhile (fun c => c.isDigit))
            = .error ("Invalid memory format: " ++ s) from by
          unfold parseMemoryCore; rw [if_pos hds]] at h
        exact absurd h (by simp)
      · have hne : s.data.takeWhile (fun c => c.isDigit) ≠ [] := by
          simpa [List.isEmpty_iff] using hds
        have hdig : ∀ c ∈ s.data.takeWhile (fun c => c.isDigit),
            c.isDigit = true := fun c hc => List.mem_takeWhile_imp hc
        have hsplit := List.takeWhile_append_dropWhile
          (p := fun c => c.isDigit) (l := s.data)
        cases hrest : s.data.dropWhile (fun c => c.isDigit) with
        | nil =>
          rw [hrest] at hsplit
          simp only [List.append_nil] at hsplit
          exact ⟨s.data.takeWhile (fun c => c.isDigit), [],
            by rw [List.append_nil]; exact hsplit.symm, hne, hdig,
            Or.inl rfl⟩
        | cons c rest =>
          cases rest with
          | nil =>
            by_cases hmem : c ∈ memUnitChars
            · rw [hrest] at hsplit
              exact ⟨s.data.takeWhile (fun c => c.isDigit), [c],
                hsplit.symm, hne, hdig, Or.inr ⟨c, rfl, hmem⟩⟩
            · rw [hrest, parseMemoryCore_bad_unit s _ c hmem] at h
              exact absurd h (by simp)
          | cons d rest' =>
            rw [hrest, parseMemoryCore_long] at h
            exact absurd h (by simp)
    · rintro ⟨ds, u, hdata, hne, hdig, hu⟩
      have hsp := hsplitter ds u hdig hu
      have hemp : ds.isEmpty = false := by
        simpa [List.isEmpty_iff] using hne
      unfold parseMemory
      rw [hdata, hsp.1, hsp.2]
      rcases hu with rfl | ⟨c, rfl, hc⟩
      · exact ⟨digitsToNat ds, parseMemoryCore_nil s ds hemp⟩
      · have hus := parseMemoryCore_units s ds hemp
        simp only [memUnitChars, List.mem_cons, List.not_mem_nil,
          or_false] at hc
        rcases hc with rfl | rfl | rfl | rfl | rfl | rfl | rfl | rfl
        · exact ⟨_, hus.1⟩
        · exact ⟨_, hus.2.2.1⟩
        · exact ⟨_, hus.2.2.2.2.1⟩
        · exact ⟨_, hus.2.2.2.2.2.2.1⟩
        · exact ⟨_, hus.2.1⟩
        · exact ⟨_, hus.2.2.2.1⟩
        · exact ⟨_, hus.2.2.2.2.2.1⟩
        · exact ⟨_, hus.2.2.2.2.2.2.2⟩
  · intro ds hne hdig
    have hemp : ds.isEmpty = false := by
      simpa [List.isEmpty_iff] using hne
    have hmkdata : ∀ l : List Char, (String.mk l).data = l := fun l => rfl
    have hd0 := hsplitter ds [] hdig (Or.inl rfl)
    have hdK := hsplitter ds ['K'] hdig
      (Or.inr ⟨'K', rfl, by decide⟩)
    have hdm := hsplitter ds ['m'] hdig
      (Or.inr ⟨'m', rfl, by decide⟩)
    have hdG := hsplitter ds ['G'] hdig
      (Or.inr ⟨'G', rfl, by decide⟩)
    have hdt := hsplitter ds ['t'] hdig
      (Or.inr ⟨'t', rfl, by decide⟩)
    refine ⟨?_, ?_, ?_, ?_, ?_⟩
    · unfold parseMemory
      rw [hmkdata, List.append_nil] at *
      rw [hd0.1, hd0.2]
      exact parseMemoryCore_nil _ ds hemp
    · unfold parseMemory
      rw [hmkdata, hdK.1, hdK.2,
        (parseMemoryCore_units _ ds hemp).1]
      norm_num
    · unfold parseMemory
      rw [hmkdata, hdm.1, hdm.2,
        (parseMemoryCore_units _ ds hemp).2.2.2.1]
      norm_num [Nat.mul_assoc]
    · unfold parseMemory
      rw [hmkdata, hdG.1, hdG.2,
        (parseMemoryCore_units _ ds hemp).2.2.2.2.1]
      norm_num [Nat.mul_assoc]
    · unfold parseMemory
      rw [hmkdata, hdt.1, hdt.2,
        (parseMemoryCore_units _ ds hemp).2.2.2.2.2.2.2]
      norm_num [Nat.mul_assoc]

/-- Witness for `parseMemory_correct`: the grammar conjunct at `"2G"` and
the byte-value conjunct at the digit list `['2']`. -/
theorem parseMemory_correct_witness :
    memoryStringGrammar "2G" ∧
      parseMemory ⟨['2']⟩ = .ok (digitsToNat ['2']) :=
  ⟨(parseMemory_correct.1 "2G").mp ⟨2 * 1024 * 1024 * 1024, rfl⟩,
    (parseMemory_correct.2.1 ['2'] (by decide) (by decide)).1⟩

/-- C3 counterexample: `parseMemory "0"` succeeds with value 0 — the code
does not reject `"0"` as a validation error, contrary to the claim. -/
theorem parseMemory_zero_accepted :
    parseMemory "0" = Except.ok 0 ∧
      parseMemory "0" ≠ Except.error "Invalid memory format: 0" := by
  refine ⟨rfl, ?_⟩
  intro h
  rw [show parseMemory "0" = Except.ok 0 from rfl] at h
  exact absurd h (by simp)

/-! ## Template resolution during create (`src/commands/create.ts`) -/

/-- `CreateOptions` from `types.ts`: all flags optional; absent booleans
are falsy. -/
structure CreateOptions where
  name : Option String
  git : Option String
  branch : Option String
  template : Option String
  memory : Option String
  cpu : Option ℚ
  timeout : Option ℚ
  persist : Bool
  autoDetect : Bool
deriving DecidableEq, Repr

/-- Template selection in `createCommand` (lines 23-43): start from
`options.template || 'base'`; when a git URL is given and
(`options.autoDetect || !options.template`), run detection and adopt its
template only when `detection.confidence > 0.7`. -/
def resolveTemplate (opts : CreateOptions) (detection : ProjectDetection) :
    String :=
  if opts.git.isSome && (opts.autoDetect || opts.template.isNone) then
    if detection.confidence > 0.7 then detection.template
    else opts.template.getD "base"
  else opts.template.getD "base"

/-- A detection whose confidence is exactly the threshold 0.7. -/
def thresholdDetection : ProjectDetection :=
  { language := "go", framework := none, packageManager := some "go-modules",
    template := "go", confidence := 0.7 }

/-- Auto-detect create options with a git URL and no explicit template. -/
def autoDetectOpts : CreateOptions :=
  { name := none, git := some "https://example.com/x.git", branch := none,
    template := none, memory := none, cpu := none, timeout := none,
    persist := false, autoDetect := true }

/-- C7 counterexample: with auto-detect on a cloned repository, a
detection of confidence exactly 0.7 is NOT accepted — the code compares
with strict `>` and falls back to the base template. -/
theorem resolveTemplate_rejects_exact_threshold :
    thresholdDetection.confidence ≥ 0.7 ∧
      resolveTemplate autoDetectOpts thresholdDetection = "base" ∧
      resolveTemplate autoDetectOpts thresholdDetection
        ≠ thresholdDetection.template := by
  refine ⟨by norm_num [thresholdDetection], ?_, ?_⟩
  · simp only [resolveTemplate, autoDetectOpts, thresholdDetection]
    norm_num
  · simp only [resolveTemplate, autoDetectOpts, thresholdDetection]
    norm_num
    decide

/-- C7 (amended): with a git URL and auto-detect requested (or no explicit
template), the detection's template is adopted exactly when its confidence
is strictly greater than 0.7; confidence ≤ 0.7 (including exactly 0.7)
falls back to the explicitly given template, or `"base"` when none was
given. -/
theorem resolveTemplate_correct :
    ∀ (opts : CreateOptions) (d : ProjectDetection),
      opts.git.isSome = true →
      (opts.autoDetect = true ∨ opts.template = none) →
      ((0.7 : ℚ) < d.confidence → resolveTemplate opts d = d.template) ∧
      (d.confidence ≤ 0.7 →
        resolveTemplate opts d = opts.template.getD "base") := by
  intro opts d hg hauto
  have hcond : (opts.git.isSome && (opts.autoDetect || opts.template.isNone))
      = true := by
    rcases hauto with h | h <;> simp [hg, h]
  constructor
  · intro hconf
    simp only [resolveTemplate, hcond, if_true]
    rw [if_pos (by exact_mod_cast hconf)]
  · intro hconf
    simp only [resolveTemplate, hcond, if_true]
    rw [if_neg (by exact_mod_cast not_lt.mpr hconf)]

/-- Witness for `resolveTemplate_correct`: a confidence-0.9 react detection
is adopted. -/
theorem resolveTemplate_correct_witness :
    ((0.7 : ℚ) < 0.9 →
      resolveTemplate autoDetectOpts
        { language := "javascript", framework := some "react",
          packageManager := none, template := "react", confidence := 0.9 }
        = "react") ∧
    ((0.9 : ℚ) ≤ 0.7 →
      resolveTemplate autoDetectOpts
        { language := "javascript", framework := some "react",
          packageManager := none, template := "react", confidence := 0.9 }
        = "base") :=
  resolveTemplate_correct autoDetectOpts
    { language := "javascript", framework := some "react",
      packageManager := none, template := "react", confidence := 0.9 }
    (by rfl) (Or.inl rfl)

/-! ## Effect traces of create and record persistence
(`SandboxManager.createSandbox`, `SandboxManager.saveSandboxConfig`) -/

/-- `~` stands for `os.homedir()`; only path identity matters here. -/
def sandboxesDir : String := "~/.dcsandbox/sandboxes"

/-- `path.join(this.sandboxesDir, id)`. -/
def sandboxDir (id : String) : String := sandboxesDir ++ "/" ++ id

/-- `path.join(this.sandboxesDir, id, 'config.json')`. -/
def configPath (id : String) : String := sandboxDir id ++ "/config.json"

/-- One observable side effect of the create pipeline, in program order. -/
inductive Ev where
  | mkdirEv (p : String)
  | copyDirEv (src dst : String)
  | writeFileEv (p content : String)
  | renameEv (src dst : String)
  | buildImageEv (tag : String)
  | createContainerEv (cname : String)
  | saveRecordEv (r : SandboxConfig)
deriving DecidableEq, Repr

/-- `SandboxManager.saveSandboxConfig` as its list of filesystem
operations: a single `fs.writeFile` of the serialized record directly to
`config.json`.  `stringify` stands for `JSON.stringify(config, null, 2)`. -/
def saveSandboxConfigOps (stringify : SandboxConfig → String)
    (r : SandboxConfig) : List Ev :=
  [ .writeFileEv (configPath r.id) (stringify r) ]

/-- `SandboxManager.generateDockerfile`, verbatim line construction. -/
def generateDockerfile (t : Template) : String :=
  String.intercalate "\n" (
    [ "FROM " ++ t.baseImage, "", "# Install additional features" ]
    ++ t.features.map
      (fun f => "RUN apt-get update && apt-get install -y " ++ f)
    ++ [ "", "# Set working directory", "WORKDIR /workspace", "",
         "# Copy workspace files", "COPY workspace/ /workspace/", "",
         "# Set environment variables" ]
    ++ (t.environment.getD []).map
      (fun kv => "ENV " ++ kv.1 ++ "=" ++ kv.2)
    ++ [ "", "# Expose ports" ]
    ++ (t.ports.getD []).map (fun p => "EXPOSE " ++ toString p)
    ++ [ "", "# Default command", "CMD [\"/bin/bash\"]" ])

/-- The side effects of `SandboxManager.createSandbox` (lines 19-91), in
program order: ensure directories, copy the clone (or make an empty
workspace — `config.git?.clonePath` truthiness decides), write the
Dockerfile and devcontainer descriptor, build the image, create the
container, then persist the updated record once.  `devcJson` stands for
the `JSON.stringify` of the generated devcontainer object. -/
def createSandboxEvents (devcJson : Template → String) (cid : String)
    (cfg : SandboxConfig) (tpl : Template) : List Ev :=
  [ .mkdirEv sandboxesDir,
    .mkdirEv (sandboxDir cfg.id) ]
  ++ (if jsTruthyStr (cfg.git.bind (fun g => g.clonePath)) then
        [ .copyDirEv ((cfg.git.bind (fun g => g.clonePath)).getD "")
            (sandboxDir cfg.id ++ "/workspace") ]
      else
        [ .mkdirEv (sandboxDir cfg.id ++ "/workspace") ])
  ++ [ .writeFileEv (sandboxDir cfg.id ++ "/Dockerfile")
         (generateDockerfile tpl),
       .mkdirEv (sandboxDir cfg.id ++ "/.devcontainer"),
       .writeFileEv (sandboxDir cfg.id ++ "/.devcontainer/devcontainer.json")
         (devcJson tpl),
       .buildImageEv ("dcsandbox:" ++ cfg.id),
       .createContainerEv ("dcsandbox-" ++ cfg.id),
       .saveRecordEv (createSandboxRecord cid cfg) ]

/-- Refine a trace event into the raw filesystem operations it performs:
record saves expand to the operations of `saveSandboxConfig`. -/
def expandEv (stringify : SandboxConfig → String) : Ev → List Ev
  | .saveRecordEv r => saveSandboxConfigOps stringify r
  | e => [e]

/-- A fresh config as `createCommand` would build it (no git). -/
def sampleCreateConfig : SandboxConfig :=
  { id := "sandbox-abc12345", name := "s1", status := .creating,
    created := 0, template := "node", git := none, mcp := ⟨true, []⟩,
    resources := ⟨"2G", 2, "10G", 120⟩, containerId := none,
    mcpPort := none }

/-- A minimal node template. -/
def sampleTemplate : Template :=
  { name := "node", baseImage := "node:20-slim", features := [],
    mcpServers := [], postCreate := none, environment := none,
    ports := none }

/-- C5 counterexample: on a concrete create, the trace contains an image
build (a side effect outside the sandbox directory) yet the only record
ever persisted has `status = stopped` — no `creating`-status record is
written at all, let alone before the side effects. -/
theorem createSandbox_persists_no_creating :
    ((createSandboxEvents (fun _ => "") "cid0" sampleCreateConfig
        sampleTemplate).filterMap
      (fun e => match e with
        | .saveRecordEv r => some r.status
        | _ => none)) = [Status.stopped] ∧
    (createSandboxEvents (fun _ => "") "cid0" sampleCreateConfig
        sampleTemplate).get? 6
      = some (.buildImageEv "dcsandbox:sandbox-abc12345") := by
  constructor
  · rfl
  · rfl

/-- C5 (amended): `createSandbox` persists the record exactly once, at the
very end of the pipeline, with `status = stopped` and the container id —
after the image build and the container creation; no `creating`-status
record is ever written during create. -/
theorem createSandbox_persist_order :
    ∀ (devcJson : Template → String) (cid : String) (cfg : SandboxConfig)
      (tpl : Template),
      ((createSandboxEvents devcJson cid cfg tpl).filterMap
        (fun e => match e with
          | .saveRecordEv r => some r
          | _ => none))
        = [{ cfg with containerId := some cid, status := .stopped }] ∧
      (createSandboxEvents devcJson cid cfg tpl).get? 6
        = some (.buildImageEv ("dcsandbox:" ++ cfg.id)) ∧
      (createSandboxEvents devcJson cid cfg tpl).get? 7
        = some (.createContainerEv ("dcsandbox-" ++ cfg.id)) ∧
      (createSandboxEvents devcJson cid cfg tpl).get? 8
        = some (.saveRecordEv
            { cfg with containerId := some cid, status := .stopped }) ∧
      (createSandboxEvents devcJson cid cfg tpl).length = 9 := by
  intro devcJson cid cfg tpl
  by_cases h : jsTruthyStr (cfg.git.bind (fun g => g.clonePath)) <;>
    simp [createSandboxEvents, h, createSandboxRecord]

/-- C6 counterexample: on a concrete record, `saveSandboxConfig` performs
a single direct `fs.writeFile` to `config.json` — there is no write to a
temporary file and no rename. -/
theorem saveSandboxConfig_writes_in_place :
    saveSandboxConfigOps (fun _ => "serialized") sampleCreateConfig
      = [Ev.writeFileEv
          "~/.dcsandbox/sandboxes/sandbox-abc12345/config.json"
          "serialized"] ∧
    ((saveSandboxConfigOps (fun _ => "serialized")
        sampleCreateConfig).filter
      (fun e => match e with
        | .renameEv _ _ => true
        | _ => false)) = [] := by
  exact ⟨rfl, rfl⟩

/-- C6 (amended): every persist of a record writes `config.json` in place
with one direct `fs.writeFile`; no temp-file-and-rename step exists — in
particular the fully expanded create trace contains no rename operation. -/
theorem saveSandboxConfig_direct_write :
    ∀ (stringify : SandboxConfig → String) (devcJson : Template → String)
      (cid : String) (cfg r : SandboxConfig) (tpl : Template),
      saveSandboxConfigOps stringify r
        = [Ev.writeFileEv (configPath r.id) (stringify r)] ∧
      (((createSandboxEvents devcJson cid cfg tpl).flatMap
          (expandEv stringify)).filter
        (fun e => match e with
          | .renameEv _ _ => true
          | _ => false)) = [] := by
  intro stringify devcJson cid cfg r tpl
  constructor
  · rfl
  · by_cases h : jsTruthyStr (cfg.git.bind (fun g => g.clonePath)) <;>
      simp [createSandboxEvents, h, expandEv, saveSandboxConfigOps]

/-! ## Store reads (`SandboxManager.getSandbox`, `listSandboxes`) -/

/-- What the filesystem offers for one path: absent, unreadable
(`fs.readFile` throws), or readable content. -/
inductive FileState where
  | missing
  | unreadable
  | content (s : String)
deriving DecidableEq, Repr

/-- The filesystem as the store sees it: per-path state and the result of
`fs.readdir(sandboxesDir)` (`none` when it throws). -/
structure Fs where
  file : String → FileState
  dirEntries : Option (List String)

/-- `SandboxManager.getSandbox`: the whole body runs in a `try`, returning
`null` on any failure: unreadable or missing `config.json`, or a throwing
`JSON.parse` (modelled by `parse` returning `none`); the `Date` revival
never throws. -/
def getSandbox (parse : String → Option SandboxConfig) (fs : Fs)
    (id : String) : Option SandboxConfig :=
  match fs.file (configPath id) with
  | .content s => parse s
  | _ => none

/-- `SandboxManager.listSandboxes`: read the directory (returning `[]` if
that throws), keep the entries whose `getSandbox` is non-null, sort newest
first by `created`. -/
def listSandboxes (parse : String → Option SandboxConfig) (fs : Fs) :
    List SandboxConfig :=
  match fs.dirEntries with
  | none => []
  | some entries =>
    (entries.filterMap (fun e => getSandbox parse fs e)).mergeSort
      (fun a b => decide (b.created ≤ a.created))

/-- C10: `getSandbox` is total over on-disk states — missing, unreadable
or unparsable `config.json` all yield `null`, never an error;
`listSandboxes` yields `[]` when the directory cannot be read, and every
record it returns comes from an entry whose `getSandbox` succeeded (so
malformed entries are silently omitted). -/
theorem getSandbox_total :
    (∀ parse fs id, (∀ s, fs.file (configPath id) ≠ .content s) →
      getSandbox parse fs id = none) ∧
    (∀ parse fs id s, fs.file (configPath id) = .content s →
      parse s = none → getSandbox parse fs id = none) ∧
    (∀ parse fs, fs.dirEntries = none → listSandboxes parse fs = []) ∧
    (∀ parse fs entries r, fs.dirEntries = some entries →
      r ∈ listSandboxes parse fs →
      ∃ e ∈ entries, getSandbox parse fs e = some r) := by
  refine ⟨?_, ?_, ?_, ?_⟩
  · intro parse fs id h
    unfold getSandbox
    cases hf : fs.file (configPath id) with
    | content s => exact absurd hf (h s)
    | missing => rfl
    | unreadable => rfl
  · intro parse fs id s hf hp
    unfold getSandbox
    rw [hf]
    exact hp
  · intro parse fs h
    unfold listSandboxes
    rw [h]
  · intro parse fs entries r hdir hr
    unfold listSandboxes at hr
    rw [hdir] at hr
    have hperm := List.mergeSort_perm
      (entries.filterMap (fun e => getSandbox parse fs e))
      (fun a b => decide (b.created ≤ a.created))
    rw [hperm.mem_iff] at hr
    rw [List.mem_filterMap] at hr
    obtain ⟨e, he, hge⟩ := hr
    exact ⟨e, he, hge⟩

/-- Witness for `getSandbox_total`: a filesystem with a missing record and
an unreadable sandboxes directory. -/
theorem getSandbox_total_witness :
    getSandbox (fun _ => none) ⟨fun _ => .missing, none⟩ "s1" = none ∧
      listSandboxes (fun _ => none) ⟨fun _ => .missing, none⟩ = [] :=
  ⟨getSandbox_total.1 (fun _ => none) ⟨fun _ => .missing, none⟩ "s1"
      (fun _ h => FileState.noConfusion h),
    getSandbox_total.2.2.1 (fun _ => none) ⟨fun _ => .missing, none⟩ rfl⟩

/-! ## MCP proxy message handling (`src/lib/mcp-proxy.ts`,
class `MCPProxyInstance`) -/

/-- A JSON-RPC id as it appears in a frame: a number, a string, JSON
`null`, or absent (`undefined`, dropped by `JSON.stringify`). -/
inductive RpcId where
  | num (n : Int)
  | str (s : String)
  | null
  | absent
deriving DecidableEq, Repr

/-- The `arguments` object of a `tools/call`; each field may be absent. -/
structure ToolArgs where
  path : Option String
  content : Option String
  command : Option String
deriving DecidableEq, Repr

/-- The `params` object of a request; field accesses on absent fields
yield `undefined`. -/
structure RpcParams where
  name : Option String
  arguments : Option ToolArgs
  uri : Option String
deriving DecidableEq, Repr

/-- A parsed JSON-RPC request as `handleMCPMessage` destructures it:
`const ... = message` destructuring of method, params and id. -/
structure MCPRequest where
  method : Option String
  params : Option RpcParams
  id : RpcId
deriving DecidableEq, Repr

/-- A JavaScript exception escaping the handler body. -/
inductive JsError where
  | typeError
  | unknownTool (n : String)
  | unsupportedUri (u : String)
deriving DecidableEq, Repr

/-- The `result` payloads the proxy can send. -/
inductive RpcResult where
  | initResult
  | toolsList
  | toolResult (isError : Bool) (text : String)
  | resourcesList
  | contents (isError : Bool) (text : String)
deriving DecidableEq, Repr

/-- Body of a reply frame: a `result` or an `error` object. -/
inductive RpcReplyBody where
  | result (r : RpcResult)
  | rpcError (code : Int) (message : String)
deriving DecidableEq, Repr

/-- A reply frame sent over the WebSocket. -/
structure RpcReply where
  body : RpcReplyBody
  id : RpcId
deriving DecidableEq, Repr

/-- Template-literal rendering of a possibly-undefined string. -/
def jsStr : Option String → String
  | none => "undefined"
  | some s => s

/-- `handleFilesystemRead`: placeholder `(isError, text)` pair. -/
def handleFilesystemRead (sandboxId : String) (path : Option String) :
    Bool × String :=
  (false, "Content of " ++ jsStr path ++ " from sandbox " ++ sandboxId)

/-- `handleFilesystemWrite`: placeholder `(isError, text)` pair. -/
def handleFilesystemWrite (sandboxId : String) (path : Option String) :
    Bool × String :=
  (false, "Successfully wrote to " ++ jsStr path ++ " in sandbox "
    ++ sandboxId)

/-- `handleShellExecute`: placeholder `(isError, text)` pair. -/
def handleShellExecute (sandboxId : String) (command : Option String) :
    Bool × String :=
  (false, "Executed: " ++ jsStr command
    ++ "\nOutput: Command executed successfully in sandbox " ++ sandboxId)

/-- `MCPProxyInstance.callTool`: dispatch on the tool name; an unknown
name (or an `undefined` one) throws `Unknown tool`; accessing `args.path`
etc. on `undefined` arguments throws a `TypeError` before the handler
runs. -/
def callTool (sandboxId : String) (name : Option String)
    (args : Option ToolArgs) : Except JsError RpcResult :=
  if name == some "filesystem_read" then
    match args with
    | none => .error .typeError
    | some a =>
      .ok (.toolResult (handleFilesystemRead sandboxId a.path).1
        (handleFilesystemRead sandboxId a.path).2)
  else if name == some "filesystem_write" then
    match args with
    | none => .error .typeError
    | some a =>
      .ok (.toolResult (handleFilesystemWrite sandboxId a.path).1
        (handleFilesystemWrite sandboxId a.path).2)
  else if name == some "shell_execute" then
    match args with
    | none => .error .typeError
    | some a =>
      .ok (.toolResult (handleShellExecute sandboxId a.command).1
        (handleShellExecute sandboxId a.command).2)
  else .error (.unknownTool (jsStr name))

/-- `MCPProxyInstance.readResource`: `uri.startsWith('file://')` throws a
`TypeError` on `undefined`, delegates to `handleFilesystemRead` on a
`file://` URI (the prefix stripped by `replace`), and throws
`Unsupported resource URI` otherwise. -/
def readResource (sandboxId : String) (uri : Option String) :
    Except JsError (Bool × String) :=
  match uri with
  | none => .error .typeError
  | some u =>
    if "file://".data.isPrefixOf u.data then
      .ok (handleFilesystemRead sandboxId (some ⟨u.data.drop 7⟩))
    else .error (.unsupportedUri u)

/-- `MCPProxyInstance.handleMCPMessage`: the five built-in methods reply
with the request's `id`; anything else goes to `forwardToMCPServer`, which
replies with `-32601 Method not found` carrying `message.id`.  Exceptions
thrown during handling are the `Except.error` results. -/
def handleMCPMessage (sandboxId : String) (m : MCPRequest) :
    Except JsError RpcReply :=
  match m.method with
  | some "initialize" => .ok ⟨.result .initResult, m.id⟩
  | some "tools/list" => .ok ⟨.result .toolsList, m.id⟩
  | some "tools/call" =>
    match m.params with
    | none => .error .typeError
    | some p =>
      match callTool sandboxId p.name p.arguments with
      | .ok r => .ok ⟨.result r, m.id⟩
      | .error e => .error e
  | some "resources/list" => .ok ⟨.result .resourcesList, m.id⟩
  | some "resources/read" =>
    match m.params with
    | none => .error .typeError
    | some p =>
      match readResource sandboxId p.uri with
      | .ok rc => .ok ⟨.result (.contents rc.1 rc.2), m.id⟩
      | .error e => .error e
  | _ => .ok ⟨.rpcError (-32601) "Method not found", m.id⟩

/-- An incoming WebSocket frame: either `JSON.parse` throws on it, or it
parses to a request object. -/
inductive Frame where
  | unparsable
  | msg (m : MCPRequest)
deriving DecidableEq, Repr

/-- What the `ws.on('message')` handler does with one frame: it only ever
sends a reply; it never closes the connection. -/
inductive WsAction where
  | send (r : RpcReply)
  | close
deriving DecidableEq, Repr

/-- The frame sent by the `catch` in `handleConnection`:
an error object with code -32700, message 'Parse error', and id null. -/
def parseErrorReply : RpcReply := ⟨.rpcError (-32700) "Parse error", .null⟩

/-- The `ws.on('message')` handler of `handleConnection`: a frame that
fails `JSON.parse` — or whose handling throws — is answered by the same
`catch` block with `-32700` and `id: null`; otherwise the reply computed
by `handleMCPMessage` is sent.  In every case the action is a send. -/
def handleFrame (sandboxId : String) (f : Frame) : WsAction :=
  match f with
  | .unparsable => .send parseErrorReply
  | .msg m =>
    match handleMCPMessage sandboxId m with
    | .ok r => .send r
    | .error _ => .send parseErrorReply

/-- A `tools/call` frame whose tool name is unknown; it parses fine and
carries id 5. -/
def unknownToolRequest : MCPRequest :=
  { method := some "tools/call",
    params := some { name := some "bogus",
                     arguments := some ⟨none, none, none⟩, uri := none },
    id := .num 5 }

/-- C4 counterexample: this frame is accepted (it parses), yet the reply
the proxy sends has `id = null` and error code `-32700` — the `catch` in
`handleConnection` also fires for exceptions thrown after parsing. -/
theorem accepted_frame_gets_null_id :
    handleFrame "s1" (.msg unknownToolRequest) = .send parseErrorReply ∧
      parseErrorReply.id = RpcId.null ∧
      parseErrorReply.body = .rpcError (-32700) "Parse error" ∧
      unknownToolRequest.id = RpcId.num 5 ∧
      RpcId.null ≠ RpcId.num 5 := by
  exact ⟨rfl, rfl, rfl, rfl, by decide⟩

/-- C4 (amended): every reply `handleMCPMessage` produces without
throwing carries the request's `id`; frames that fail JSON parsing — and
also accepted frames whose handling throws (unknown tool name, missing
params, unsupported resource URI) — are answered with `-32700` and
`id = null`. -/
theorem response_id_matches :
    (∀ sid m r, handleMCPMessage sid m = .ok r → r.id = m.id) ∧
    (∀ sid, handleFrame sid .unparsable = .send parseErrorReply) ∧
    (∀ sid m e, handleMCPMessage sid m = .error e →
      handleFrame sid (.msg m) = .send parseErrorReply) := by
  refine ⟨?_, fun _ => rfl, ?_⟩
  · intro sid m r h
    unfold handleMCPMessage at h
    repeat' split at h
    all_goals
      first
        | (injection h with h'; rw [← h'])
        | injection h
  · intro sid m e h
    simp only [handleFrame, h]

/-- Witness for `response_id_matches`: an `initialize` request with id 7
is answered with id 7. -/
theorem response_id_matches_witness :
    (RpcReply.mk (.result .initResult) (.num 7)).id
      = (MCPRequest.mk (some "initialize") none (.num 7)).id :=
  response_id_matches.1 "s1" ⟨some "initialize", none, .num 7⟩
    ⟨.result .initResult, .num 7⟩ rfl

/-- A `tools/call` frame with another unknown tool name, id 7. -/
def unknownToolRequest7 : MCPRequest :=
  { method := some "tools/call",
    params := some { name := some "not_a_tool",
                     arguments := some ⟨none, none, none⟩, uri := none },
    id := .num 7 }

/-- C9 counterexample: a `tools/call` with an unknown name is answered
with `-32700 Parse error` and `id = null`, not with `-32601` carrying the
request's id; the connection is not closed. -/
theorem unknown_tool_not_32601 :
    handleFrame "s1" (.msg unknownToolRequest7)
      = .send ⟨.rpcError (-32700) "Parse error", .null⟩ ∧
      WsAction.send ⟨.rpcError (-32700) "Parse error", .null⟩
        ≠ .send ⟨.rpcError (-32601) "Method not found", .num 7⟩ ∧
      WsAction.send ⟨.rpcError (-32700) "Parse error", .null⟩
        ≠ .close := by
  refine ⟨rfl, by decide, by decide⟩

/-- C9 (amended): a `tools/call` whose name is none of `filesystem_read`,
`filesystem_write`, `shell_execute` makes `callTool` throw; the `catch` in
`handleConnection` answers with `-32700 'Parse error'` and `id = null`
(not `-32601` with the request's id), and the WebSocket connection is not
closed — the handler only ever sends. -/
theorem unknown_tool_parse_error :
    ∀ (sid : String) (m : MCPRequest) (p : RpcParams),
      m.method = some "tools/call" → m.params = some p →
      p.name ≠ some "filesystem_read" →
      p.name ≠ some "filesystem_write" →
      p.name ≠ some "shell_execute" →
      handleFrame sid (.msg m) = .send parseErrorReply ∧
      handleFrame sid (.msg m) ≠ .close := by
  intro sid m p hm hp h1 h2 h3
  have hb1 : (p.name == some "filesystem_read") = false := by
    simpa using h1
  have hb2 : (p.name == some "filesystem_write") = false := by
    simpa using h2
  have hb3 : (p.name == some "shell_execute") = false := by
    simpa using h3
  have hct : callTool sid p.name p.arguments
      = .error (.unknownTool (jsStr p.name)) := by
    unfold callTool
    rw [hb1, hb2, hb3]
    simp
  have hmsg : handleMCPMessage sid m
      = .error (.unknownTool (jsStr p.name)) := by
    unfold handleMCPMessage
    rw [hm, hp]
    simp only [hct]
  constructor
  · simp only [handleFrame, hmsg]
  · simp only [handleFrame, hmsg]
    simp

/-- Witness for `unknown_tool_parse_error` at a concrete request. -/
theorem unknown_tool_parse_error_witness :
    handleFrame "s9"
        (.msg ⟨some "tools/call", some ⟨some "nope", none, none⟩, .str "w"⟩)
      = .send parseErrorReply ∧
      handleFrame "s9"
        (.msg ⟨some "tools/call", some ⟨some "nope", none, none⟩, .str "w"⟩)
        ≠ .close :=
  unknown_tool_parse_error "s9"
    ⟨some "tools/call", some ⟨some "nope", none, none⟩, .str "w"⟩
    ⟨some "nope", none, none⟩ rfl rfl (by decide) (by decide) (by decide)

/-! ## Project detector (`src/lib/project-detector.ts`) -/

/-- JS `String.prototype.endsWith`, on the underlying character list. -/
def jsEndsWith (s suffix : String) : Bool := suffix.data.isSuffixOf s.data

/-- JS `String.prototype.includes`, on the underlying character list. -/
def jsIncludes (s sub : String) : Bool := decide (sub.data <:+: s.data)

/-- `files.includes(n)`. -/
def hasFile (files : List String) (n : String) : Bool := files.contains n

/-- `files.some(f => f.endsWith(suffix))`. -/
def hasExt (files : List String) (suffix : String) : Bool :=
  files.any (fun f => jsEndsWith f suffix)

/-- `files.some(f => f.includes(sub))`. -/
def anyIncludes (files : List String) (sub : String) : Bool :=
  files.any (fun f => jsIncludes f sub)

/-- The parse of `package.json`: the merged keys of `dependencies` and
`devDependencies`.  `none` models a throwing `JSON.parse`/`readFile`. -/
structure PkgJson where
  deps : List String
deriving DecidableEq, Repr

/-- `ProjectDetector.detectNodeJS`: +0.8 for `package.json`, framework
chain +0.1 (react, vue, nextjs, nuxt, express, nestjs), −0.2 on a parse
error, +0.05 for the first matching lock file (setting the package
manager), +0.1 each for `.js`/`.jsx` and `.ts`/`.tsx` files, +0.05 each
for `tsconfig.json` and an eslint config. -/
def detectNodeJS (files : List String) (pkg : Option PkgJson) :
    ProjectDetection :=
  let fw : Option String × ℚ :=
    if hasFile files "package.json" then
      match pkg with
      | some j =>
        if j.deps.contains "react" || j.deps.contains "@types/react" then
          (some "react", 0.8 + 0.1)
        else if j.deps.contains "vue" || j.deps.contains "@vue/cli" then
          (some "vue", 0.8 + 0.1)
        else if j.deps.contains "next" then (some "nextjs", 0.8 + 0.1)
        else if j.deps.contains "nuxt" then (some "nuxt", 0.8 + 0.1)
        else if j.deps.contains "express" then (some "express", 0.8 + 0.1)
        else if j.deps.contains "nestjs" || j.deps.contains "@nestjs/core"
          then (some "nestjs", 0.8 + 0.1)
        else (none, 0.8)
      | none => (none, 0.8 - 0.2)
    else (none, 0)
  let pm : Option String × ℚ :=
    if hasFile files "package-lock.json" then (some "npm", 0.05)
    else if hasFile files "yarn.lock" then (some "yarn", 0.05)
    else if hasFile files "pnpm-lock.yaml" then (some "pnpm", 0.05)
    else (none, 0)
  let c := fw.2 + pm.2
    + (if files.any (fun f => jsEndsWith f ".js" || jsEndsWith f ".jsx")
        then 0.1 else 0)
    + (if files.any (fun f => jsEndsWith f ".ts" || jsEndsWith f ".tsx")
        then 0.1 else 0)
    + (if hasFile files "tsconfig.json" then 0.05 else 0)
    + (if hasFile files ".eslintrc.js" || hasFile files ".eslintrc.json"
        then 0.05 else 0)
  { language := "javascript", framework := fw.1, packageManager := pm.1,
    template := if fw.1 == some "react" then "react" else "node",
    confidence := c }

/-- `ProjectDetector.detectPython`: +0.6 for `.py` files, +0.2
requirements, +0.15 setup.py, +0.1 each pyproject/Pipfile/poetry.lock
(later package managers overwrite earlier), framework chain django 0.15 /
flask 0.1 / fastapi 0.1. -/
def detectPython (files : List String) : ProjectDetection :=
  let fw : Option String × ℚ :=
    if hasFile files "manage.py" then (some "django", 0.15)
    else if files.any
        (fun f => jsIncludes f "flask" || jsIncludes f "app.py") then
      (some "flask", 0.1)
    else if hasFile files "main.py" && anyIncludes files "fastapi" then
      (some "fastapi", 0.1)
    else (none, 0)
  let c := (if hasExt files ".py" then (0.6 : ℚ) else 0)
    + (if hasFile files "requirements.txt" then 0.2 else 0)
    + (if hasFile files "setup.py" then 0.15 else 0)
    + (if hasFile files "pyproject.toml" then 0.1 else 0)
    + (if hasFile files "Pipfile" then 0.1 else 0)
    + (if hasFile files "poetry.lock" then 0.1 else 0)
    + fw.2
  let pm : Option String :=
    if hasFile files "poetry.lock" then some "poetry"
    else if hasFile files "Pipfile" then some "pipenv"
    else if hasFile files "requirements.txt" then some "pip"
    else none
  { language := "python", framework := fw.1, packageManager := pm,
    template := if fw.1 == some "django" then "django" else "python",
    confidence := c }

/-- `ProjectDetector.detectGo`. -/
def detectGo (files : List String) : ProjectDetection :=
  { language := "go", framework := none,
    packageManager := some "go-modules", template := "go",
    confidence := (if hasExt files ".go" then (0.7 : ℚ) else 0)
      + (if hasFile files "go.mod" then 0.2 else 0)
      + (if hasFile files "go.sum" then 0.1 else 0) }

/-- `ProjectDetector.detectRust`. -/
def detectRust (files : List String) : ProjectDetection :=
  { language := "rust", framework := none, packageManager := some "cargo",
    template := "rust",
    confidence := (if hasExt files ".rs" then (0.7 : ℚ) else 0)
      + (if hasFile files "Cargo.toml" then 0.25 else 0)
      + (if hasFile files "Cargo.lock" then 0.1 else 0) }

/-- `ProjectDetector.detectJava`: both build files can contribute; the
gradle assignment overwrites maven when both are present. -/
def detectJava (files : List String) : ProjectDetection :=
  let hasGradle := hasFile files "build.gradle"
    || hasFile files "build.gradle.kts"
  let fw : Option String × ℚ :=
    if anyIncludes files "Application.java" then (some "spring-boot", 0.1)
    else (none, 0)
  { language := "java", framework := fw.1,
    packageManager :=
      if hasGradle then some "gradle"
      else if hasFile files "pom.xml" then some "maven"
      else none,
    template := "java",
    confidence := (if hasExt files ".java" then (0.7 : ℚ) else 0)
      + (if hasFile files "pom.xml" then 0.2 else 0)
      + (if hasGradle then 0.2 else 0) + fw.2 }

/-- `ProjectDetector.detectRuby`. -/
def detectRuby (files : List String) : ProjectDetection :=
  let fw : Option String × ℚ :=
    if hasFile files "config.ru" then (some "rails", 0.1) else (none, 0)
  { language := "ruby", framework := fw.1,
    packageManager := some "bundler", template := "ruby",
    confidence := (if hasExt files ".rb" then (0.7 : ℚ) else 0)
      + (if hasFile files "Gemfile" then 0.2 else 0)
      + (if hasFile files "Gemfile.lock" then 0.1 else 0) + fw.2 }

/-- `ProjectDetector.detectPHP`. -/
def detectPHP (files : List String) : ProjectDetection :=
  let fw : Option String × ℚ :=
    if hasFile files "artisan" then (some "laravel", 0.1)
    else if hasFile files "index.php" && anyIncludes files "symfony" then
      (some "symfony", 0.1)
    else (none, 0)
  { language := "php", framework := fw.1,
    packageManager := some "composer", template := "php",
    confidence := (if hasExt files ".php" then (0.7 : ℚ) else 0)
      + (if hasFile files "composer.json" then 0.2 else 0)
      + (if hasFile files "composer.lock" then 0.1 else 0) + fw.2 }

/-- `ProjectDetector.detectDotNet`. -/
def detectDotNet (files : List String) : ProjectDetection :=
  { language := "csharp", framework := none,
    packageManager := some "nuget", template := "dotnet",
    confidence :=
      (if files.any (fun f => jsEndsWith f ".cs" || jsEndsWith f ".csproj"
          || jsEndsWith f ".sln") then (0.7 : ℚ) else 0)
      + (if hasExt files ".csproj" then 0.2 else 0)
      + (if hasExt files ".sln" then 0.1 else 0) }

/-- The detector list of `detectProject`, in source order. -/
def detections (files : List String) (pkg : Option PkgJson) :
    List ProjectDetection :=
  [ detectNodeJS files pkg, detectPython files, detectGo files,
    detectRust files, detectJava files, detectRuby files,
    detectPHP files, detectDotNet files ]

/-- The fallback detection when no detector scores positive. -/
def defaultDetection : ProjectDetection :=
  { language := "unknown", framework := none, packageManager := none,
    template := "base", confidence := 0 }

/-- `results.reduce((best, current) => current.confidence >
best.confidence ? current : best)`: strict comparison, so the earlier
element survives ties. -/
def pickBest : ProjectDetection → List ProjectDetection → ProjectDetection
  | best, [] => best
  | best, c :: rest =>
    pickBest (if best.confidence < c.confidence then c else best) rest

/-- The selection step of `detectProject`: keep results with positive
confidence (the `if (result.confidence > 0)` push), return the default
when none remain, else reduce. -/
def selectDetection (l : List ProjectDetection) : ProjectDetection :=
  match l.filter (fun d => decide (0 < d.confidence)) with
  | [] => defaultDetection
  | h :: t => pickBest h t

/-- `ProjectDetector.detectProject` as a pure function of the directory
listing and the parsed `package.json` (the only I/O the detectors do). -/
def detectProject (files : List String) (pkg : Option PkgJson) :
    ProjectDetection :=
  selectDetection (detections files pkg)

theorem pickBest_firstmax :
    ∀ (t : List ProjectDetection) (best : ProjectDetection),
      ∃ i, (best :: t).get? i = some (pickBest best t) ∧
        (∀ d ∈ best :: t, d.confidence ≤ (pickBest best t).confidence) ∧
        (∀ j d', j < i → (best :: t).get? j = some d' →
          d'.confidence < (pickBest best t).confidence) := by
  intro t
  induction t with
  | nil =>
    intro best
    refine ⟨0, rfl, ?_, ?_⟩
    · intro d hd
      simp only [List.mem_singleton] at hd
      subst hd
      simp [pickBest]
    · intro j d' hj _
      omega
  | cons c rest ih =>
    intro best
    by_cases hbc : best.confidence < c.confidence
    · have heq : pickBest best (c :: rest) = pickBest c rest := by
        simp [pickBest, hbc]
      obtain ⟨i, hget, hmax, hfirst⟩ := ih c
      refine ⟨i + 1, ?_, ?_, ?_⟩
      · rw [heq]
        simpa using hget
      · intro d hd
        rw [heq]
        rcases List.mem_cons.mp hd with rfl | hd'
        · exact le_trans (le_of_lt hbc) (hmax c (by simp))
        · exact hmax d hd'
      · intro j d' hj hgetj
        rw [heq]
        cases j with
        | zero =>
          have hd' : best = d' := by simpa using hgetj
          subst hd'
          exact lt_of_lt_of_le hbc (hmax c (by simp))
        | succ k =>
          exact hfirst k d' (by omega) (by simpa using hgetj)
    · have heq : pickBest best (c :: rest) = pickBest best rest := by
        simp [pickBest, hbc]
      obtain ⟨i, hget, hmax, hfirst⟩ := ih best
      have hcle : c.confidence ≤ best.confidence := not_lt.mp hbc
      have hbestle : best.confidence ≤ (pickBest best rest).confidence :=
        hmax best (by simp)
      cases i with
      | zero =>
        have hres : pickBest best rest = best := by
          have := hget
          simp only [List.get?] at this
          exact (Option.some.inj this).symm
        refine ⟨0, ?_, ?_, ?_⟩
        · rw [heq, hres]
          rfl
        · intro d hd
          rw [heq]
          rcases List.mem_cons.mp hd with rfl | hd'
          · exact hbestle
          · rcases List.mem_cons.mp hd' with rfl | hd''
            · exact le_trans hcle hbestle
            · exact hmax d (by simp [hd''])
        · intro j d' hj _
          omega
      | succ k =>
        refine ⟨k + 2, ?_, ?_, ?_⟩
        · rw [heq]
          simpa using hget
        · intro d hd
          rw [heq]
          rcases List.mem_cons.mp hd with rfl | hd'
          · exact hbestle
          · rcases List.mem_cons.mp hd' with rfl | hd''
            · exact le_trans hcle hbestle
            · exact hmax d (by simp [hd''])
        · intro j d' hj hgetj
          rw [heq]
          cases j with
          | zero =>
            have hd' : best = d' := by simpa using hgetj
            subst hd'
            exact hfirst 0 best (by omega) (by simp)
          | succ jk =>
            cases jk with
            | zero =>
              have hd' : c = d' := by simpa using hgetj
              subst hd'
              exact lt_of_le_of_lt hcle
                (hfirst 0 best (by omega) (by simp))
            | succ jj =>
              exact hfirst (jj + 1) d' (by omega) (by simpa using hgetj)

theorem pickBest_filter :
    ∀ (rest : List ProjectDetection) (best : ProjectDetection),
      0 < best.confidence →
      pickBest best (rest.filter (fun d => decide (0 < d.confidence)))
        = pickBest best rest := by
  intro rest
  induction rest with
  | nil =>
    intro best _
    rfl
  | cons c r ih =>
    intro best hb
    by_cases hc : 0 < c.confidence
    · have hfil : (c :: r).filter (fun d => decide (0 < d.confidence))
          = c :: r.filter (fun d => decide (0 < d.confidence)) := by
        simp [List.filter_cons, hc]
      rw [hfil]
      simp only [pickBest]
      by_cases hbc : best.confidence < c.confidence
      · rw [if_pos hbc]
        exact ih c hc
      · rw [if_neg hbc]
        exact ih best hb
    · have hfil : (c :: r).filter (fun d => decide (0 < d.confidence))
          = r.filter (fun d => decide (0 < d.confidence)) := by
        simp [List.filter_cons, hc]
      rw [hfil]
      have hbc : ¬ best.confidence < c.confidence := by
        intro hlt
        exact hc (lt_trans hb hlt)
      simp only [pickBest, if_neg hbc]
      exact ih best hb

theorem selectDetection_spec :
    ∀ l : List ProjectDetection,
      ((∀ d ∈ l, d.confidence ≤ 0) →
        selectDetection l = defaultDetection) ∧
      ((∃ d ∈ l, 0 < d.confidence) →
        ∃ i, l.get? i = some (selectDetection l) ∧
          (∀ d ∈ l, d.confidence ≤ (selectDetection l).confidence) ∧
          (∀ j d', j < i → l.get? j = some d' →
            d'.confidence < (selectDetection l).confidence)) := by
  intro l
  induction l with
  | nil =>
    constructor
    · intro _
      rfl
    · rintro ⟨d, hd, _⟩
      simp at hd
  | cons c rest ih =>
    constructor
    · intro hall
      have hc : ¬ 0 < c.confidence := not_lt.mpr (hall c (by simp))
      have hfil : (c :: rest).filter (fun d => decide (0 < d.confidence))
          = rest.filter (fun d => decide (0 < d.confidence)) := by
        simp [List.filter_cons, hc]
      have hrest := ih.1 (fun d hd => hall d (by simp [hd]))
      unfold selectDetection
      rw [hfil]
      unfold selectDetection at hrest
      exact hrest
    · rintro ⟨d, hd, hdpos⟩
      by_cases hc : 0 < c.confidence
      · have hfil : (c :: rest).filter (fun d => decide (0 < d.confidence))
            = c :: rest.filter (fun d => decide (0 < d.confidence)) := by
          simp [List.filter_cons, hc]
        have hsel : selectDetection (c :: rest) = pickBest c rest := by
          unfold selectDetection
          rw [hfil]
          exact pickBest_filter rest c hc
        rw [hsel]
        exact pickBest_firstmax rest c
      · have hdrest : d ∈ rest := by
          rcases List.mem_cons.mp hd with rfl | h
          · exact absurd hdpos hc
          · exact h
        have hfil : (c :: rest).filter (fun d => decide (0 < d.confidence))
            = rest.filter (fun d => decide (0 < d.confidence)) := by
          simp [List.filter_cons, hc]
        have hsel : selectDetection (c :: rest) = selectDetection rest := by
          unfold selectDetection
          rw [hfil]
        rw [hsel]
        obtain ⟨i, hget, hmax, hfirst⟩ := ih.2 ⟨d, hdrest, hdpos⟩
        have hpos : 0 < (selectDetection rest).confidence :=
          lt_of_lt_of_le hdpos (hmax d hdrest)
        refine ⟨i + 1, by simpa using hget, ?_, ?_⟩
        · intro e he
          rcases List.mem_cons.mp he with rfl | he'
          · exact le_trans (not_lt.mp hc) (le_of_lt hpos)
          · exact hmax e he'
        · intro j d' hj hgetj
          cases j with
          | zero =>
            have hd' : c = d' := by simpa using hgetj
            subst hd'
            exact lt_of_le_of_lt (not_lt.mp hc) hpos
          | succ k =>
            exact hfirst k d' (by omega) (by simpa using hgetj)

/-- C8 (amended): `detectProject` returns the `ProjectDetection` of the
detector whose summed score is highest, ties broken by the fixed order
javascript, python, go, rust, java, ruby, php, dotnet — with the
confidence equal to that detector's raw sum, NOT clamped to `[0, 1]`; when
no detector scores positive, the default (language `unknown`, template
`base`, confidence 0) is returned. -/
theorem detectProject_first_max :
    ∀ (files : List String) (pkg : Option PkgJson),
      ((∀ d ∈ detections files pkg, d.confidence ≤ 0) →
        detectProject files pkg = defaultDetection) ∧
      ((∃ d ∈ detections files pkg, 0 < d.confidence) →
        ∃ i, (detections files pkg).get? i
            = some (detectProject files pkg) ∧
          (∀ d ∈ detections files pkg,
            d.confidence ≤ (detectProject files pkg).confidence) ∧
          (∀ j d', j < i → (detections files pkg).get? j = some d' →
            d'.confidence < (detectProject files pkg).confidence)) :=
  fun files pkg => selectDetection_spec (detections files pkg)

/-- Witness for `detectProject_first_max`: on a Go listing, the Go
detector's score is a lower bound of the winner's confidence. -/
theorem detectProject_first_max_witness :
    (detectGo ["main.go", "go.mod"]).confidence
      ≤ (detectProject ["main.go", "go.mod"] none).confidence := by
  have hgopos : (0 : ℚ) < (detectGo ["main.go", "go.mod"]).confidence := by
    rw [show (detectGo ["main.go", "go.mod"]).confidence
        = 0.7 + 0.2 + 0 from rfl]
    norm_num
  obtain ⟨i, hget, hmax, hfirst⟩ :=
    (detectProject_first_max ["main.go", "go.mod"] none).2
      ⟨detectGo ["main.go", "go.mod"], by simp [detections], hgopos⟩
  exact hmax (detectGo ["main.go", "go.mod"]) (by simp [detections])

/-- A JavaScript listing whose node detector total exceeds 1. -/
def jsListing : List String :=
  ["package.json", "package-lock.json", "a.js", "a.ts", "tsconfig.json",
   ".eslintrc.js"]

/-- A parsed `package.json` with a react dependency. -/
def reactPkg : PkgJson := ⟨["react"]⟩

/-- C8 counterexample: `detectProject` does not clamp the confidence to
`[0, 1]` — on this listing it returns confidence 1.25. -/
theorem detectProject_exceeds_one :
    (detectProject jsListing (some reactPkg)).confidence = 1.25 ∧
      ¬ (detectProject jsListing (some reactPkg)).confidence ≤ 1 := by
  have hnodec : (detectNodeJS jsListing (some reactPkg)).confidence
      = 0.8 + 0.1 + 0.05 + 0.1 + 0.1 + 0.05 + 0.05 := rfl
  have hpyc : (detectPython jsListing).confidence
      = 0 + 0 + 0 + 0 + 0 + 0 + 0 := rfl
  have hgoc : (detectGo jsListing).confidence = 0 + 0 + 0 := rfl
  have hrsc : (detectRust jsListing).confidence = 0 + 0 + 0 := rfl
  have hjvc : (detectJava jsListing).confidence = 0 + 0 + 0 + 0 := rfl
  have hrbc : (detectRuby jsListing).confidence = 0 + 0 + 0 + 0 := rfl
  have hphc : (detectPHP jsListing).confidence = 0 + 0 + 0 + 0 := rfl
  have hdnc : (detectDotNet jsListing).confidence = 0 + 0 + 0 := rfl
  have hfil : (detections jsListing (some reactPkg)).filter
      (fun d => decide (0 < d.confidence))
      = [detectNodeJS jsListing (some reactPkg)] := by
    simp only [detections, List.filter_cons, List.filter_nil, hnodec, hpyc,
      hgoc, hrsc, hjvc, hrbc, hphc, hdnc]
    norm_num
  have hsel : detectProject jsListing (some reactPkg)
      = detectNodeJS jsListing (some reactPkg) := by
    unfold detectProject selectDetection
    rw [hfil]
    rfl
  rw [hsel, hnodec]
  constructor <;> norm_num
